import Mathlib

set_option maxRecDepth 8000

/-!
Verification of the pomosidian time-tracking plugin (src/main.ts).

Shallow embedding conventions:
* A JS string is modelled as `Str := List Char`; string literals are written
  as Lean string literals converted with `.data`.
* A JS `Date` is modelled as `DateTime`: the local civil fields returned by
  `getFullYear`/`getMonth`+1/`getDate`/`getHours`/`getMinutes`/`getSeconds`
  plus the millisecond component.  `getTime` is modelled as milliseconds
  since the epoch computed from the civil fields with proleptic-Gregorian
  day arithmetic (a fixed-offset timezone model, which is exact for the
  timestamp differences the code computes).
* `this.totalTime` (seconds, a JS float) is tracked exactly as
  `totalTimeMs : Int` with `totalTime = totalTimeMs / 1000`.
* Regex operations of main.ts are modelled by explicit scanning functions
  that mirror the leftmost-match semantics of the JS patterns involved
  (all the patterns used by main.ts are backtracking-free).
-/

abbrev Str := List Char

/-- The U+23F1 U+FE0F glyph used both in the log-entry template (main.ts line
114) and in the timestamp-extraction regex (line 175). -/
def timerGlyph : Str := ['⏱', '️']

/-- The U+23F8 U+FE0F glyph shown in the status bar while running. -/
def pauseGlyph : Str := ['⏸', '️']

/-- Decimal digit character, as produced by JS number-to-string conversion. -/
def digitChar (n : Nat) : Char :=
  if n = 0 then '0' else if n = 1 then '1' else if n = 2 then '2'
  else if n = 3 then '3' else if n = 4 then '4' else if n = 5 then '5'
  else if n = 6 then '6' else if n = 7 then '7' else if n = 8 then '8'
  else if n = 9 then '9' else '*'

/-- Fuel-driven digit renderer (structural recursion so that the kernel can
evaluate it; `natToStr` supplies sufficient fuel). -/
def natToStrAux (fuel n : Nat) : Str :=
  match fuel with
  | 0 => []
  | fuel' + 1 =>
    if n < 10 then [digitChar n]
    else natToStrAux fuel' (n / 10) ++ [digitChar (n % 10)]

/-- JS `(n).toString()` for a natural number (decimal, no padding). -/
def natToStr (n : Nat) : Str := natToStrAux (n + 1) n

/-- JS `n.toString().padStart(2, '0')`. -/
def pad2 (n : Nat) : Str :=
  if n < 10 then '0' :: natToStr n else natToStr n

/-- Numeric value of a decimal digit character. -/
def dval (c : Char) : Nat := c.toNat - 48

/-- A JS `Date`: local civil fields plus milliseconds.  `month` is the
human 1-based month (the code always prints `getMonth() + 1`). -/
structure DateTime where
  year : Nat
  month : Nat
  day : Nat
  hour : Nat
  minute : Nat
  second : Nat
  ms : Nat
deriving DecidableEq, Repr

/-- Days from the epoch 1970-01-01 of a proleptic-Gregorian civil date
(Hinnant's days_from_civil, modelling the host's date arithmetic). -/
def daysFromCivil (y m d : Int) : Int :=
  let y2 := if m ≤ 2 then y - 1 else y
  let era := Int.tdiv (if 0 ≤ y2 then y2 else y2 - 399) 400
  let yoe := y2 - era * 400
  let doy := Int.tdiv (153 * (m + (if 2 < m then -3 else 9)) + 2) 5 + d - 1
  let doe := yoe * 365 + Int.tdiv yoe 4 - Int.tdiv yoe 100 + doy
  era * 146097 + doe - 719468

/-- Seconds since the epoch of the second-truncated civil timestamp. -/
def toSec (t : DateTime) : Int :=
  daysFromCivil t.year t.month t.day * 86400
    + t.hour * 3600 + t.minute * 60 + t.second

/-- JS `Date.prototype.getTime` (milliseconds since the epoch). -/
def getTime (t : DateTime) : Int := toSec t * 1000 + t.ms

/-- Drop the millisecond component (what the printed timestamp encodes). -/
def truncMs (t : DateTime) : DateTime := { t with ms := 0 }

/-- Field ranges guaranteed by the host's `Date` getters, restricted to
four-digit years (the era in which the plugin's `\d{4}` timestamps live). -/
def ValidDate (t : DateTime) : Prop :=
  1000 ≤ t.year ∧ t.year ≤ 9999 ∧ 1 ≤ t.month ∧ t.month ≤ 12 ∧
  1 ≤ t.day ∧ t.day ≤ 31 ∧ t.hour ≤ 23 ∧ t.minute ≤ 59 ∧ t.second ≤ 59 ∧
  t.ms ≤ 999

instance (t : DateTime) : Decidable (ValidDate t) := by
  unfold ValidDate; infer_instance

/-- main.ts lines 190-207, `formatTime`: compact human label for a
(nonnegative, already floored) number of seconds. -/
def formatTime (seconds : Nat) : Str :=
  let hours := seconds / 3600
  let minutes := seconds % 3600 / 60
  let remainingSeconds := seconds % 60
  if hours > 0 ∧ minutes > 0 then
    natToStr hours ++ 'h' :: natToStr minutes ++ ['m']
  else if hours > 0 then natToStr hours ++ ['h']
  else if minutes > 0 ∧ remainingSeconds > 0 then
    natToStr minutes ++ 'm' :: natToStr remainingSeconds ++ ['s']
  else if minutes > 0 then natToStr minutes ++ ['m']
  else natToStr remainingSeconds ++ ['s']

/-- main.ts lines 100-108, `formatDateTime`: `YYYY-MM-DD HH:MM:SS` from the
local civil fields (year unpadded, all other fields padded to 2). -/
def formatDateTime (t : DateTime) : Str :=
  natToStr t.year ++ '-' :: pad2 t.month ++ '-' :: pad2 t.day
    ++ ' ' :: pad2 t.hour ++ ':' :: pad2 t.minute ++ ':' :: pad2 t.second

/-- main.ts line 110: `Math.floor((endTime.getTime() - startTime.getTime()) / 1000)`
(floor division of the millisecond difference). -/
def durationSecondsI (s e : DateTime) : Int := Int.fdiv (getTime e - getTime s) 1000

/-- main.ts line 114: the freshly rendered log entry
`` ` ⏱️ ${formatDateTime(startTime)} - ${formatDateTime(endTime)} (${durationFormatted})` ``. -/
def logEntry (s e : DateTime) : Str :=
  ' ' :: timerGlyph ++ ' ' :: formatDateTime s
    ++ ' ' :: '-' :: ' ' :: formatDateTime e
    ++ ' ' :: '(' :: formatTime (durationSecondsI s e).toNat ++ [')']


/-- JS `\d`: an ASCII decimal digit. -/
def isDig (c : Char) : Bool := '0' ≤ c && c ≤ '9'

/-- Read two mandatory digit characters (regex `\d{2}`). -/
def read2 (s : Str) : Option (Nat × Str) :=
  match s with
  | a :: b :: rest =>
    if isDig a && isDig b then some (dval a * 10 + dval b, rest) else none
  | _ => none

/-- Read four mandatory digit characters (regex `\d{4}`). -/
def read4 (s : Str) : Option (Nat × Str) :=
  match s with
  | a :: b :: c :: d :: rest =>
    if isDig a && isDig b && isDig c && isDig d then
      some (((dval a * 10 + dval b) * 10 + dval c) * 10 + dval d, rest)
    else none
  | _ => none

/-- Consume one mandatory literal character. -/
def expectCh (c : Char) (s : Str) : Option Str :=
  match s with
  | x :: rest => if x = c then some rest else none
  | _ => none

/-- Consume a mandatory literal string. -/
def expectStr (p s : Str) : Option Str :=
  if p.isPrefixOf s then some (s.drop p.length) else none

/-- Match `\d{4}-\d{2}-\d{2} \d{2}:\d{2}:\d{2}` and interpret the capture the
way main.ts line 177 does (`new Date(capture)`: local civil time, ms 0). -/
def matchTimestamp (s : Str) : Option (DateTime × Str) := do
  let (y, s1) ← read4 s
  let s2 ← expectCh '-' s1
  let (mo, s3) ← read2 s2
  let s4 ← expectCh '-' s3
  let (d, s5) ← read2 s4
  let s6 ← expectCh ' ' s5
  let (h, s7) ← read2 s6
  let s8 ← expectCh ':' s7
  let (mi, s9) ← read2 s8
  let s10 ← expectCh ':' s9
  let (sec, _s11) ← read2 s10
  pure (⟨y, mo, d, h, mi, sec, 0⟩, _s11)

/-- Try the whole pattern of main.ts line 175 at the current position:
`⏱️ (\d{4}-…) - (\d{4}-…)`. -/
def matchPatternAt (s : Str) : Option (DateTime × DateTime) := do
  let s1 ← expectStr (timerGlyph ++ [' ']) s
  let (t1, s2) ← matchTimestamp s1
  let s3 ← expectStr [' ', '-', ' '] s2
  let (t2, _s4) ← matchTimestamp s3
  pure (t1, t2)

/-- `entry.match(/⏱️ (…) - (…)/)`: leftmost match of the pattern anywhere in
the entry (the pattern is deterministic, so scanning positions left to right
is exactly the JS semantics). -/
def timeMatch (s : Str) : Option (DateTime × DateTime) :=
  match s with
  | [] => none
  | _ :: rest =>
    match matchPatternAt s with
    | some r => some r
    | none => timeMatch rest

/-- Contribution of one entry in main.ts lines 173-183: the difference of the
two re-parsed timestamps in seconds if the pattern matches, else 0.  (Both
parsed dates have ms = 0, so the JS `(end - start) / 1000` is exact and
equals the difference of epoch seconds.) -/
def entryDuration (entry : Str) : Int :=
  match timeMatch entry with
  | some (t1, t2) => toSec t2 - toSec t1
  | none => 0

/-- main.ts lines 169-188, `calculateTotalTime`. -/
def calculateTotalTime (logEntries : List Str) : Int :=
  (logEntries.map entryDuration).sum

/-- The opening of the front-matter pattern `^---\n`. -/
def fmOpenPat : Str := ['-', '-', '-', '\n']

/-- The closing of the front-matter pattern `\n---`. -/
def nlDashPat : Str := ['\n', '-', '-', '-']

/-- Split a string at the leftmost occurrence of a (nonempty) pattern:
`s = a ++ pat ++ b` with the occurrence earliest; `none` if absent. -/
def splitOnFirst (pat : Str) : Str → Option (Str × Str)
  | [] => none
  | c :: rest =>
    if pat.isPrefixOf (c :: rest) then some ([], (c :: rest).drop pat.length)
    else
      match splitOnFirst pat rest with
      | some (a, b) => some (c :: a, b)
      | none => none

/-- Attempt the front-matter regex `^---\n([\s\S]*?)\n---` at the current
(line-start) position: returns the lazy capture and the text after the
closing `---`. -/
def fmAt (s : Str) : Option (Str × Str) :=
  if fmOpenPat.isPrefixOf s then splitOnFirst nlDashPat (s.drop 4) else none

/-- Scan for the leftmost line-start position where the front-matter pattern
matches (the `m` flag makes `^` match after every newline). -/
def findFMGo (acc : Str) (s : Str) (atStart : Bool) : Option (Str × Str × Str) :=
  match s with
  | [] => none
  | c :: rest =>
    match (if atStart then fmAt s else none) with
    | some (g, post) => some (acc.reverse, g, post)
    | none => findFMGo (c :: acc) rest (c == '\n')

/-- main.ts line 124 `frontMatterRegex` (pattern `^---\n([\s\S]*?)\n---`,
with the `m` flag): leftmost match decomposition
`content = pre ++ "---\n" ++ group ++ "\n---" ++ post`. -/
def findFM (s : Str) : Option (Str × Str × Str) := findFMGo [] s true

/-- The literal key pattern of main.ts line 134 `timeSpentRegex = /time_spent: .*/m`. -/
def tsKeyPat : Str := "time_spent: ".data

/-- The literal key pattern of main.ts line 135
`logBlockRegex = /pomosidian_log: \|-\n([\s\S]*)/m`. -/
def logKeyPat : Str := "pomosidian_log: |-\n".data

/-- `timeSpentRegex.test`: the pattern occurs somewhere (not anchored). -/
def hasTimeSpent (s : Str) : Bool := (splitOnFirst tsKeyPat s).isSome

/-- `.replace(timeSpentRegex, "time_spent: T")`: the leftmost occurrence of
`time_spent: ` and the rest of that line are replaced. -/
def replaceTimeSpent (s newVal : Str) : Str :=
  match splitOnFirst tsKeyPat s with
  | some (a, b) => a ++ tsKeyPat ++ newVal ++ b.dropWhile (· != '\n')
  | none => s

/-- `logBlockRegex.test`. -/
def hasLogBlock (s : Str) : Bool := (splitOnFirst logKeyPat s).isSome

/-- `.replace(logBlockRegex, "pomosidian_log: |-\n" ++ entry ++ "\n$1")`: the
greedy group `([\s\S]*)` is everything to the end of the string, so the new
entry is prepended right after the key and the old block kept verbatim. -/
def replaceLogBlock (s entry : Str) : Str :=
  match splitOnFirst logKeyPat s with
  | some (a, g) => a ++ logKeyPat ++ entry ++ '\n' :: g
  | none => s

/-- Whitespace for JS `String.prototype.trim` (the code points occurring in
the documents handled here). -/
def isWsChar (c : Char) : Bool := c == ' ' || c == '\t' || c == '\n' || c == '\r'

/-- JS `.trim()`. -/
def jsTrim (s : Str) : Str :=
  ((s.dropWhile isWsChar).reverse.dropWhile isWsChar).reverse

/-- main.ts lines 134-152: update `time_spent` and `pomosidian_log` inside an
existing front-matter capture.  Note both `.test` calls inspect the original
capture while the replacements run on the successively updated string,
exactly as in the code. -/
def mergeFrontMatter (existingFM entry totalStr : Str) : Str :=
  let fm1 :=
    if hasTimeSpent existingFM then replaceTimeSpent existingFM totalStr
    else existingFM ++ '\n' :: tsKeyPat ++ totalStr
  if hasLogBlock existingFM then replaceLogBlock fm1 entry
  else fm1 ++ '\n' :: logKeyPat ++ entry

/-- main.ts lines 98-167 (`logTimeSpent`), the pure content transformation
performed when the target file was found.  Note line 138: the "total" is
computed from `[logEntry]` alone — only the freshly added entry. -/
def logTimeSpentContent (s e : DateTime) (content : Str) : Str :=
  let durationFormatted := formatTime (durationSecondsI s e).toNat
  let entry := logEntry s e
  match findFM content with
  | some (pre, fm, post) =>
    let totalStr := formatTime (calculateTotalTime [entry]).toNat
    pre ++ fmOpenPat ++ jsTrim (mergeFrontMatter fm entry totalStr)
      ++ '\n' :: '-' :: '-' :: '-' :: post
  | none =>
    fmOpenPat ++ tsKeyPat ++ durationFormatted ++ '\n' :: logKeyPat ++ entry
      ++ '\n' :: '-' :: '-' :: '-' :: '\n' :: '\n' :: jsTrim content

/-- Split into lines at every newline (JS `split('\n')`). -/
def lineSplit : Str → List Str
  | [] => [[]]
  | c :: rest =>
    if c = '\n' then [] :: lineSplit rest
    else
      match lineSplit rest with
      | [] => [[c]]
      | l :: ls => (c :: l) :: ls

/-- Join lines with newlines (inverse of `lineSplit`). -/
def joinNl : List Str → Str
  | [] => []
  | [l] => l
  | l :: l2 :: ls => l ++ '\n' :: joinNl (l2 :: ls)

/-- Observer: the stored `time_spent` value of a document (text between the
first `time_spent: ` in the front matter and the end of that line). -/
def storedTimeSpent (doc : Str) : Option Str :=
  match findFM doc with
  | some (_, fm, _) =>
    match splitOnFirst tsKeyPat fm with
    | some (_, b) => some (b.takeWhile (· != '\n'))
    | none => none
  | none => none

/-- Observer: the lines of the stored `pomosidian_log` block of a document. -/
def storedLogEntries (doc : Str) : List Str :=
  match findFM doc with
  | some (_, fm, _) =>
    match splitOnFirst logKeyPat fm with
    | some (_, g) => lineSplit g
    | none => []
  | none => []

/-- One merge step on the serialized log-field text: main.ts line 149
prepends the new entry and keeps the previous text (`$1`) verbatim. -/
def mergeLogText (entry L : Str) : Str := entry ++ '\n' :: L

/-- Merging a batch of new entries one at a time (latest first). -/
def mergeManyLogText (es : List Str) (L : Str) : Str := es.foldr mergeLogText L

/-- main.ts lines 69-71: the status-bar text produced by the 1-second tick.
`formatTime` receives the fractional elapsed seconds and floors them. -/
def tickText (s now : DateTime) (fileName : Str) : Str :=
  pauseGlyph ++ ' ' :: formatTime (Int.fdiv (getTime now - getTime s) 1000).toNat
    ++ ' ' :: '-' :: ' ' :: fileName

/-- A vault file: basename and current content. -/
structure MFile where
  basename : Str
  content : Str
deriving DecidableEq

/-- The plugin's mutable fields (main.ts lines 13-17).  `timer` is whether the
interval handle is set; `totalTimeMs` tracks `this.totalTime` (seconds)
exactly, in milliseconds. -/
structure PState where
  timer : Bool
  startTime : Option DateTime
  totalTimeMs : Int
  timerFileName : Option Str
deriving DecidableEq

def unknownPage : Str := "Unknown page".data

def noticeAlreadyRunning : Str := "Timer is already running.".data

def noticeNoTimer : Str := "No timer is running.".data

def noticeStarted (name : Str) : Str :=
  "Timer started for ".data ++ name ++ ['.']

/-- JS string interpolation of a possibly-null value. -/
def jsShowOpt (n : Option Str) : Str :=
  match n with
  | some s => s
  | none => "null".data

def noticeNotFound (name : Option Str) : Str :=
  "Could not find the file where the timer started (".data ++ jsShowOpt name ++ [')', '.']

def noticeStopped (name : Str) (timeSpentMs : Int) : Str :=
  "Timer stopped for ".data ++ name ++ ". Total time: ".data
    ++ formatTime (Int.fdiv timeSpentMs 1000).toNat

def epochDate : DateTime := ⟨1970, 1, 1, 0, 0, 0, 0⟩

/-- main.ts lines 58-75, `startTimer`: no-op with a notice when already
running; otherwise capture the clock and the active file's basename. -/
def startTimer (st : PState) (now : DateTime) (activeFile : Option Str) :
    PState × List Str :=
  if st.timer then (st, [noticeAlreadyRunning])
  else
    let name := match activeFile with | some b => b | none => unknownPage
    ({ timer := true, startTime := some now, totalTimeMs := st.totalTimeMs,
       timerFileName := some name }, [noticeStarted name])

/-- main.ts lines 116-166: locate the target by the stored `timerFileName`
and either write the merged content or report failure. -/
def logTimeSpentEff (s e : DateTime) (name : Option Str) (vault : List MFile) :
    List (Str × Str) × List Str :=
  match vault.find? (fun f => decide (name = some f.basename)) with
  | some f => ([(f.basename, logTimeSpentContent s e f.content)], [])
  | none => ([], [noticeNotFound name])

/-- main.ts lines 77-96, `stopTimer`: no-op with a notice when idle;
otherwise clear the handle, add the elapsed time to `totalTime` (before the
file lookup), and run `logTimeSpent` with the name captured at start.  The
`_activeAtStop` argument is the workspace's active file at stop time; the
code never reads it (the write target comes from `timerFileName`). -/
def stopTimer (st : PState) (now : DateTime) (vault : List MFile)
    (_activeAtStop : Option Str) : PState × List (Str × Str) × List Str :=
  if !st.timer then (st, [], [noticeNoTimer])
  else
    let s := st.startTime.getD epochDate
    let timeSpentMs := getTime now - getTime s
    let name := match st.timerFileName with | some n => n | none => unknownPage
    let (writes, ns) := logTimeSpentEff s now st.timerFileName vault
    ({ st with timer := false, totalTimeMs := st.totalTimeMs + timeSpentMs },
     writes, ns ++ [noticeStopped name timeSpentMs])

/-- A sequence of stop-edits applied to one document's content (each cycle's
session merged in turn). -/
def runCycles (ss : List (DateTime × DateTime)) (content : Str) : Str :=
  ss.foldl (fun c p => logTimeSpentContent p.1 p.2 c) content


/-! ### Digit-string lemmas -/

def digitChars : Str := "0123456789".data

lemma digitChar_mem (n : Nat) (h : n < 10) : digitChar n ∈ digitChars := by
  interval_cases n <;> decide

lemma dval_digitChar (n : Nat) (h : n < 10) : dval (digitChar n) = n := by
  interval_cases n <;> decide

lemma isDig_digitChar (n : Nat) (h : n < 10) : isDig (digitChar n) = true := by
  interval_cases n <;> decide

lemma natToStrAux_irrel : ∀ (f f2 n : Nat), n < f → n < f2 →
    natToStrAux f n = natToStrAux f2 n := by
  intro f
  induction f with
  | zero => intro f2 n h _; omega
  | succ f ih =>
    intro f2 n hf hf2
    cases f2 with
    | zero => omega
    | succ f2 =>
      by_cases h : n < 10
      · simp [natToStrAux, h]
      · simp only [natToStrAux, if_neg h]
        rw [ih f2 (n / 10) (by omega) (by omega)]

lemma natToStr_lt {n : Nat} (h : n < 10) : natToStr n = [digitChar n] := by
  simp [natToStr, natToStrAux, h]

lemma natToStr_ge {n : Nat} (h : 10 ≤ n) :
    natToStr n = natToStr (n / 10) ++ [digitChar (n % 10)] := by
  show natToStrAux (n + 1) n = _
  simp only [natToStrAux, if_neg (by omega : ¬ n < 10)]
  rw [natToStrAux_irrel n (n / 10 + 1) (n / 10) (by omega) (by omega)]
  rfl

lemma natToStr_digits : ∀ (n : Nat), ∀ c ∈ natToStr n, c ∈ digitChars := by
  intro n
  induction n using Nat.strong_induction_on with
  | _ n ih =>
    intro c hc
    by_cases h : n < 10
    · rw [natToStr_lt h] at hc
      rcases List.mem_singleton.mp hc with rfl
      exact digitChar_mem n h
    · rw [natToStr_ge (by omega)] at hc
      rcases List.mem_append.mp hc with h1 | h1
      · exact ih (n / 10) (by omega) c h1
      · rcases List.mem_singleton.mp h1 with rfl
        exact digitChar_mem _ (by omega)

lemma pad2_digits (n : Nat) : ∀ c ∈ pad2 n, c ∈ digitChars := by
  intro c hc
  unfold pad2 at hc
  split_ifs at hc
  · rcases List.mem_cons.mp hc with rfl | h1
    · decide
    · exact natToStr_digits n c h1
  · exact natToStr_digits n c hc

/-! ### Character sets of the rendered strings -/

lemma natToStr_subset (n : Nat) : natToStr n ⊆ digitChars :=
  fun _c hc => natToStr_digits n _c hc

lemma pad2_subset (n : Nat) : pad2 n ⊆ digitChars :=
  fun _c hc => pad2_digits n _c hc

def ftChars : Str := "0123456789hms".data

def fdtChars : Str := "0123456789-: ".data

/-- All characters that can occur in a freshly rendered log entry. -/
def leChars : Str := "0123456789-: hms()".data ++ timerGlyph

lemma formatTime_subset (n : Nat) : formatTime n ⊆ ftChars := by
  unfold formatTime
  dsimp only
  split_ifs <;> simp only [List.append_subset, List.cons_subset] <;>
    repeat' apply And.intro
  all_goals first
    | decide
    | exact (natToStr_subset _).trans (by decide)

lemma formatDateTime_subset (t : DateTime) : formatDateTime t ⊆ fdtChars := by
  unfold formatDateTime
  simp only [List.append_subset, List.cons_subset]
  repeat' apply And.intro
  all_goals first
    | decide
    | exact (natToStr_subset _).trans (by decide)
    | exact (pad2_subset _).trans (by decide)

lemma logEntry_subset (s e : DateTime) : logEntry s e ⊆ leChars := by
  unfold logEntry
  simp only [List.append_subset, List.cons_subset]
  repeat' apply And.intro
  all_goals first
    | decide
    | exact (formatDateTime_subset _).trans (by decide)
    | exact (formatTime_subset _).trans (by decide)

lemma noNl_formatTime (n : Nat) : '\n' ∉ formatTime n := by
  intro h
  exact absurd (formatTime_subset n h) (by decide)

lemma noNl_logEntry (s e : DateTime) : '\n' ∉ logEntry s e := by
  intro h
  exact absurd (logEntry_subset s e h) (by decide)

/-! ### Parse-back of rendered timestamps -/

lemma natToStr_len2 {n : Nat} (h1 : 10 ≤ n) (h2 : n ≤ 99) :
    natToStr n = [digitChar (n / 10), digitChar (n % 10)] := by
  rw [natToStr_ge h1, natToStr_lt (by omega : n / 10 < 10)]
  rfl

lemma natToStr4 {y : Nat} (h1 : 1000 ≤ y) (h2 : y ≤ 9999) :
    natToStr y = [digitChar (y / 1000), digitChar (y / 100 % 10),
      digitChar (y / 10 % 10), digitChar (y % 10)] := by
  rw [natToStr_ge (by omega : 10 ≤ y),
      natToStr_ge (by omega : 10 ≤ y / 10),
      natToStr_len2 (by omega : 10 ≤ y / 10 / 10) (by omega : y / 10 / 10 ≤ 99)]
  have e1 : y / 10 / 10 = y / 100 := by omega
  have e2 : y / 10 / 10 / 10 = y / 1000 := by omega
  rw [e1] at *
  simp [e2, e1]

lemma read2_pad2 {n : Nat} (h : n ≤ 99) (r : Str) :
    read2 (pad2 n ++ r) = some (n, r) := by
  by_cases h10 : n < 10
  · have hp : pad2 n = ['0', digitChar n] := by
      unfold pad2
      rw [if_pos h10, natToStr_lt h10]
    rw [hp]
    show read2 ('0' :: digitChar n :: r) = some (n, r)
    simp only [read2]
    rw [if_pos (by simp [isDig_digitChar n h10]; decide)]
    simp [dval_digitChar n h10]
    decide
  · have hp : pad2 n = [digitChar (n / 10), digitChar (n % 10)] := by
      unfold pad2
      rw [if_neg h10, natToStr_len2 (by omega) h]
    rw [hp]
    show read2 (digitChar (n / 10) :: digitChar (n % 10) :: r) = some (n, r)
    simp only [read2]
    rw [if_pos (by simp [isDig_digitChar (n / 10) (by omega), isDig_digitChar (n % 10) (by omega)])]
    simp [dval_digitChar (n / 10) (by omega), dval_digitChar (n % 10) (by omega)]
    omega

lemma read4_year {y : Nat} (h1 : 1000 ≤ y) (h2 : y ≤ 9999) (r : Str) :
    read4 (natToStr y ++ r) = some (y, r) := by
  rw [natToStr4 h1 h2]
  show read4 (digitChar (y / 1000) :: digitChar (y / 100 % 10)
    :: digitChar (y / 10 % 10) :: digitChar (y % 10) :: r) = some (y, r)
  simp only [read4]
  rw [if_pos (by simp [isDig_digitChar (y / 1000) (by omega), isDig_digitChar (y / 100 % 10) (by omega),
        isDig_digitChar (y / 10 % 10) (by omega), isDig_digitChar (y % 10) (by omega)])]
  simp [dval_digitChar (y / 1000) (by omega), dval_digitChar (y / 100 % 10) (by omega),
        dval_digitChar (y / 10 % 10) (by omega), dval_digitChar (y % 10) (by omega)]
  omega

lemma matchTimestamp_fdt {t : DateTime} (h : ValidDate t) (r : Str) :
    matchTimestamp (formatDateTime t ++ r) = some (truncMs t, r) := by
  obtain ⟨h1, h2, h3, h4, h5, h6, h7, h8, h9, _⟩ := h
  unfold formatDateTime matchTimestamp
  simp only [List.append_assoc, List.cons_append]
  rw [read4_year h1 h2]
  simp only [Option.bind_eq_bind, Option.some_bind, Option.pure_def, expectCh,
    eq_self_iff_true, if_true,
    read2_pad2 (by omega : t.month ≤ 99),
    read2_pad2 (by omega : t.day ≤ 99),
    read2_pad2 (by omega : t.hour ≤ 99),
    read2_pad2 (by omega : t.minute ≤ 99),
    read2_pad2 (by omega : t.second ≤ 99)]
  rfl

lemma timeMatch_cons_none {c : Char} {rest : Str} (h : matchPatternAt (c :: rest) = none) :
    timeMatch (c :: rest) = timeMatch rest := by
  conv_lhs => unfold timeMatch
  rw [h]

lemma timeMatch_cons_some {c : Char} {rest : Str} {v : DateTime × DateTime}
    (h : matchPatternAt (c :: rest) = some v) : timeMatch (c :: rest) = some v := by
  conv_lhs => unfold timeMatch
  rw [h]

lemma matchPatternAt_ne {c : Char} (h : c ≠ '⏱') (rest : Str) :
    matchPatternAt (c :: rest) = none := by
  unfold matchPatternAt expectStr
  have hp : (timerGlyph ++ [' ']).isPrefixOf (c :: rest) = false := by
    show List.isPrefixOf ('⏱' :: '️' :: [' ']) (c :: rest) = false
    rw [List.isPrefixOf_cons₂]
    simp [beq_eq_false_iff_ne, Ne.symm h]
  rw [hp]
  simp

lemma matchPatternAt_entry {s e : DateTime} (hs : ValidDate s) (he : ValidDate e) (tail : Str) :
    matchPatternAt ('⏱' :: '️' :: ' ' ::
        (formatDateTime s ++ (' ' :: '-' :: ' ' :: (formatDateTime e ++ tail))))
      = some (truncMs s, truncMs e) := by
  unfold matchPatternAt expectStr
  have hp : (timerGlyph ++ [' ']).isPrefixOf ('⏱' :: '️' :: ' ' ::
      (formatDateTime s ++ (' ' :: '-' :: ' ' :: (formatDateTime e ++ tail)))) = true := by
    show List.isPrefixOf ('⏱' :: '️' :: [' ']) _ = true
    simp [List.isPrefixOf_cons₂]
  rw [hp]
  simp only [if_true, timerGlyph, Option.bind_eq_bind, Option.some_bind, Option.pure_def]
  show (matchTimestamp (formatDateTime s ++ (' ' :: '-' :: ' ' :: (formatDateTime e ++ tail)))).bind _ = _
  rw [matchTimestamp_fdt hs]
  simp only [Option.some_bind]
  have hp2 : List.isPrefixOf [' ', '-', ' '] (' ' :: '-' :: ' ' :: (formatDateTime e ++ tail)) = true := by
    simp [List.isPrefixOf_cons₂]
  rw [hp2]
  simp only [if_true, Option.some_bind]
  show (matchTimestamp (formatDateTime e ++ tail)).bind _ = _
  rw [matchTimestamp_fdt he]
  simp

lemma timeMatch_logEntry {s e : DateTime} (hs : ValidDate s) (he : ValidDate e) :
    timeMatch (logEntry s e) = some (truncMs s, truncMs e) := by
  unfold logEntry
  simp only [timerGlyph, List.cons_append, List.append_assoc, List.nil_append]
  rw [timeMatch_cons_none (matchPatternAt_ne (by decide) _),
      timeMatch_cons_some (matchPatternAt_entry hs he _)]

lemma toSec_truncMs (t : DateTime) : toSec (truncMs t) = toSec t := rfl

lemma durationSecondsI_eq_toSec {s e : DateTime} (he : e.ms ≤ 999)
    (hms : s.ms ≤ e.ms) : durationSecondsI s e = toSec e - toSec s := by
  unfold durationSecondsI getTime
  have h1 : (toSec e * 1000 + (e.ms : Int)) - (toSec s * 1000 + (s.ms : Int))
      = ((e.ms : Int) - (s.ms : Int)) + (toSec e - toSec s) * 1000 := by ring
  rw [h1, Int.fdiv_eq_ediv _ (by omega),
      Int.add_mul_ediv_right _ _ (by omega : (1000 : Int) ≠ 0),
      Int.ediv_eq_zero_of_lt (by omega) (by omega)]
  omega

lemma entryDuration_logEntry {s e : DateTime} (hs : ValidDate s) (he : ValidDate e) :
    entryDuration (logEntry s e) = toSec e - toSec s := by
  unfold entryDuration
  rw [timeMatch_logEntry hs he]
  rfl

/-! ### Leftmost-occurrence machinery for the replace operations -/

lemma isPrefixOf_append_of_le {pat : Str} : ∀ {x : Str} (b : Str),
    pat.length ≤ x.length → pat.isPrefixOf (x ++ b) = pat.isPrefixOf x := by
  induction pat with
  | nil => intro x b _; simp
  | cons p ps ih =>
    intro x b h
    cases x with
    | nil => simp at h
    | cons a as =>
      simp only [List.cons_append, List.isPrefixOf_cons₂]
      rw [ih b (by simp at h; omega)]

/-- No occurrence of `pat` starts strictly before the end of `a` in `a ++ pat`
(decidable; used to pin down the leftmost occurrence). -/
def noEarlyOcc (pat : Str) : Str → Bool
  | [] => true
  | c :: a2 => !(pat.isPrefixOf ((c :: a2) ++ pat)) && noEarlyOcc pat a2

lemma splitOnFirst_at (pat : Str) (hne : pat ≠ []) :
    ∀ (a b : Str), noEarlyOcc pat a = true →
      splitOnFirst pat (a ++ (pat ++ b)) = some (a, b) := by
  intro a
  induction a with
  | nil =>
    intro b _
    simp only [List.nil_append]
    cases pat with
    | nil => exact absurd rfl hne
    | cons p ps =>
      show splitOnFirst (p :: ps) ((p :: ps) ++ b) = some ([], b)
      simp only [List.cons_append, splitOnFirst, List.append_eq]
      rw [if_pos (by
        show List.isPrefixOf (p :: ps) ((p :: ps) ++ b) = true
        exact List.isPrefixOf_iff_prefix.mpr (List.prefix_append _ _))]
      have hd : List.drop (p :: ps).length ((p :: ps) ++ b) = b := List.drop_left _ _
      exact congrArg (fun x => some (([] : Str), x)) hd
  | cons c a2 ih =>
    intro b hno
    simp only [noEarlyOcc, Bool.and_eq_true, Bool.not_eq_true'] at hno
    obtain ⟨hno1, hno2⟩ := hno
    have hg : pat.isPrefixOf (c :: (a2 ++ (pat ++ b))) = false := by
      rw [show c :: (a2 ++ (pat ++ b)) = ((c :: a2) ++ pat) ++ b by simp,
          isPrefixOf_append_of_le b (by simp; omega)]
      exact hno1
    show splitOnFirst pat (c :: (a2 ++ (pat ++ b))) = some (c :: a2, b)
    simp only [splitOnFirst, List.append_eq]
    rw [if_neg (by rw [hg]; exact Bool.false_ne_true)]
    rw [ih b hno2]

/-- No character `a` immediately followed by `b` anywhere in the string. -/
def chain2Free (a b : Char) : Str → Bool
  | [] => true
  | [_] => true
  | x :: y :: rest => !(x == a && y == b) && chain2Free a b (y :: rest)

lemma chain2Free_cons {a b x y : Char} {rest : Str} :
    chain2Free a b (x :: y :: rest) = (!(x == a && y == b) && chain2Free a b (y :: rest)) := rfl

lemma chain2Free_tail {a b c : Char} {t : Str} (h : chain2Free a b (c :: t) = true) :
    chain2Free a b t = true := by
  cases t with
  | nil => rfl
  | cons d t2 =>
    simp only [chain2Free_cons, Bool.and_eq_true] at h
    exact h.2

lemma chain2Free_pair {a b c d : Char} {t : Str} (h : chain2Free a b (c :: d :: t) = true) :
    (c == a && d == b) = false := by
  simp only [chain2Free_cons, Bool.and_eq_true, Bool.not_eq_true'] at h
  exact h.1

lemma chain2Free_append {a b : Char} : ∀ {x y : Str}, chain2Free a b x = true →
    chain2Free a b y = true →
    (∀ u v, x.getLast? = some u → y.head? = some v → (u == a && v == b) = false) →
    chain2Free a b (x ++ y) = true := by
  intro x
  induction x with
  | nil => intro y _ hy _; simpa using hy
  | cons c x2 ih =>
    intro y hx hy hb
    cases x2 with
    | nil =>
      cases y with
      | nil => rfl
      | cons d y2 =>
        show chain2Free a b (c :: d :: y2) = true
        simp only [chain2Free_cons, Bool.and_eq_true, Bool.not_eq_true']
        exact ⟨hb c d rfl rfl, hy⟩
    | cons c2 x3 =>
      show chain2Free a b (c :: c2 :: (x3 ++ y)) = true
      simp only [chain2Free_cons, Bool.and_eq_true, Bool.not_eq_true']
      refine ⟨chain2Free_pair hx, ?_⟩
      exact ih (chain2Free_tail hx) hy
        (fun u v hu hv => hb u v (by rw [List.getLast?_cons_cons]; exact hu) hv)

/-- Splitting at the separator `"\n---"` when the left part never has `'\n'`
followed by `'-'`: straddling occurrences are impossible because the
separator itself starts with `'\n'`. -/
lemma splitOnFirst_nlDash : ∀ (fm b : Str), chain2Free '\n' '-' fm = true →
    splitOnFirst nlDashPat (fm ++ (nlDashPat ++ b)) = some (fm, b) := by
  intro fm
  induction fm with
  | nil =>
    intro b _
    exact splitOnFirst_at nlDashPat (by decide) [] b rfl
  | cons c fm2 ih =>
    intro b hch
    have hg : nlDashPat.isPrefixOf (c :: (fm2 ++ (nlDashPat ++ b))) = false := by
      show List.isPrefixOf ('\n' :: '-' :: '-' :: ['-']) _ = false
      rw [List.isPrefixOf_cons₂]
      by_cases hc : c = '\n'
      · subst hc
        rw [show (('\n' : Char) == '\n') = true from rfl, Bool.true_and]
        cases fm2 with
        | nil =>
          show List.isPrefixOf ('-' :: '-' :: ['-']) ('\n' :: '-' :: '-' :: '-' :: b) = false
          rw [List.isPrefixOf_cons₂]
          rw [show (('-' : Char) == '\n') = false from rfl, Bool.false_and]
        | cons d fm3 =>
          have hd : (d == '-') = false := by
            have h2 := chain2Free_pair hch
            rwa [show (('\n' : Char) == '\n') = true from rfl, Bool.true_and] at h2
          show List.isPrefixOf ('-' :: '-' :: ['-']) (d :: (fm3 ++ (nlDashPat ++ b))) = false
          rw [List.isPrefixOf_cons₂]
          have hd2 : (('-' : Char) == d) = false := by
            rw [beq_eq_false_iff_ne] at hd ⊢
            exact fun h => hd h.symm
          rw [hd2, Bool.false_and]
      · have h0 : (('\n' : Char) == c) = false := by
          rw [beq_eq_false_iff_ne]
          exact fun h => hc h.symm
        rw [h0, Bool.false_and]
    show splitOnFirst nlDashPat (c :: (fm2 ++ (nlDashPat ++ b))) = some (c :: fm2, b)
    simp only [splitOnFirst, List.append_eq]
    rw [if_neg (by rw [hg]; exact Bool.false_ne_true)]
    rw [ih b (chain2Free_tail hch)]

/-! ### Line splitting and trimming -/

lemma lineSplit_ne_nil (s : Str) : lineSplit s ≠ [] := by
  cases s with
  | nil => simp [lineSplit]
  | cons c rest =>
    simp only [lineSplit]
    split_ifs
    · simp
    · cases lineSplit rest <;> simp

lemma lineSplit_cons_nl (rest : Str) : lineSplit ('\n' :: rest) = [] :: lineSplit rest := by
  simp [lineSplit]

lemma lineSplit_cons_other {c : Char} (h : c ≠ '\n') (rest : Str) :
    lineSplit (c :: rest) =
      match lineSplit rest with
      | [] => [[c]]
      | l :: ls => (c :: l) :: ls := by
  simp [lineSplit, h]

lemma lineSplit_noNl {l : Str} (h : '\n' ∉ l) : lineSplit l = [l] := by
  induction l with
  | nil => rfl
  | cons c rest ih =>
    have hc : c ≠ '\n' := fun e => h (e ▸ List.mem_cons_self c rest)
    have hr : '\n' ∉ rest := fun e => h (List.mem_cons_of_mem c e)
    rw [lineSplit_cons_other hc, ih hr]

lemma lineSplit_append_nl {l : Str} (h : '\n' ∉ l) (rest : Str) :
    lineSplit (l ++ '\n' :: rest) = l :: lineSplit rest := by
  induction l with
  | nil => simp [lineSplit_cons_nl]
  | cons c l2 ih =>
    have hc : c ≠ '\n' := fun e => h (e ▸ List.mem_cons_self c l2)
    have hr : '\n' ∉ l2 := fun e => h (List.mem_cons_of_mem c e)
    rw [List.cons_append, lineSplit_cons_other hc, ih hr]

lemma joinNl_lineSplit : ∀ s : Str, joinNl (lineSplit s) = s := by
  intro s
  induction s with
  | nil => rfl
  | cons c rest ih =>
    by_cases hc : c = '\n'
    · subst hc
      rw [lineSplit_cons_nl]
      cases h : lineSplit rest with
      | nil => exact absurd h (lineSplit_ne_nil rest)
      | cons l ls =>
        show joinNl ([] :: l :: ls) = '\n' :: rest
        rw [joinNl, List.nil_append]
        rw [← h, ih]
    · rw [lineSplit_cons_other hc]
      cases h : lineSplit rest with
      | nil => exact absurd h (lineSplit_ne_nil rest)
      | cons l ls =>
        cases ls with
        | nil =>
          show joinNl [c :: l] = c :: rest
          have : joinNl [l] = rest := by rw [← h, ih]
          rw [joinNl] at this ⊢
          rw [this]
        | cons l2 ls2 =>
          show joinNl ((c :: l) :: l2 :: ls2) = c :: rest
          rw [joinNl, List.cons_append]
          have : joinNl (l :: l2 :: ls2) = rest := by rw [← h, ih]
          rw [joinNl] at this
          rw [this]

lemma lineSplit_joinNl : ∀ (ls : List Str), ls ≠ [] → (∀ l ∈ ls, '\n' ∉ l) →
    lineSplit (joinNl ls) = ls := by
  intro ls
  induction ls with
  | nil => intro h _; exact absurd rfl h
  | cons l ls2 ih =>
    intro _ hnl
    cases ls2 with
    | nil =>
      show lineSplit (joinNl [l]) = [l]
      rw [joinNl]
      exact lineSplit_noNl (hnl l (by simp))
    | cons l2 ls3 =>
      rw [joinNl, lineSplit_append_nl (hnl l (by simp))]
      rw [ih (by simp) (fun x hx => hnl x (List.mem_cons_of_mem _ hx))]

lemma dropWhile_noop {p : Char → Bool} {s : Str}
    (h : ∀ c, s.head? = some c → p c = false) : s.dropWhile p = s := by
  cases s with
  | nil => rfl
  | cons c rest =>
    rw [List.dropWhile_cons, h c rfl]
    simp

lemma jsTrim_noop {s : Str} (h1 : ∀ c, s.head? = some c → isWsChar c = false)
    (h2 : ∀ c, s.getLast? = some c → isWsChar c = false) : jsTrim s = s := by
  unfold jsTrim
  rw [dropWhile_noop h1,
      dropWhile_noop (fun c hc => h2 c (by rwa [List.head?_reverse] at hc)),
      List.reverse_reverse]

/-! ### Claim theorems -/

/-- C9: during total recomputation, every log entry whose embedded timestamps
fail to match the expected pattern contributes exactly 0 seconds and is
skipped, leaving the sum over the remaining entries unaffected. -/
theorem c9_malformed_skipped (pre post : List Str) (entry : Str)
    (h : timeMatch entry = none) :
    entryDuration entry = 0 ∧
    calculateTotalTime (pre ++ entry :: post) = calculateTotalTime (pre ++ post) := by
  have hz : entryDuration entry = 0 := by unfold entryDuration; rw [h]
  refine ⟨hz, ?_⟩
  unfold calculateTotalTime
  simp [List.map_append, hz]

theorem c9_malformed_skipped_witness :
    entryDuration "garbage line".data = 0 ∧
    calculateTotalTime
        (["first".data] ++ "garbage line".data :: ["last".data]) =
      calculateTotalTime (["first".data] ++ ["last".data]) :=
  c9_malformed_skipped ["first".data] ["last".data] "garbage line".data (by decide)

/-- C3: the duration formatter maps 0 to "0s", 59 to "59s", 60 to "1m",
3600 to "1h" and 3661 to "1h1m", and the very same `formatTime` applied to
the same floored elapsed-seconds quantity is embedded both in the live tick
display and in the persisted log entry. -/
theorem c3_formatting_boundary :
    formatTime 0 = "0s".data ∧ formatTime 59 = "59s".data ∧
    formatTime 60 = "1m".data ∧ formatTime 3600 = "1h".data ∧
    formatTime 3661 = "1h1m".data ∧
    (∀ (s e : DateTime) (name : Str),
      List.IsInfix (formatTime (durationSecondsI s e).toNat) (tickText s e name) ∧
      List.IsInfix ('(' :: formatTime (durationSecondsI s e).toNat ++ [')'])
        (logEntry s e)) := by
  refine ⟨by decide, by decide, by decide, by decide, by decide, ?_⟩
  intro s e name
  constructor
  · exact ⟨pauseGlyph ++ [' '], ' ' :: '-' :: ' ' :: name, by
      simp [tickText, durationSecondsI, List.append_assoc]⟩
  · exact ⟨' ' :: timerGlyph ++ ' ' :: formatDateTime s
        ++ ' ' :: '-' :: ' ' :: formatDateTime e ++ [' '], [], by
      simp [logEntry, List.append_assoc]⟩

/-- C2: starting while running and stopping while idle are reported no-ops
with no state change and no persisted write; stopping twice from a running
state yields exactly one state transition and one write, the second stop
being a reported no-op. -/
theorem c2_state_guard (st stIdle : PState) (now now2 tIdle : DateTime)
    (af act actIdle : Option Str) (v vIdle : List MFile)
    (hrun : st.timer = true) (hidle : stIdle.timer = false)
    (hfound : (v.find? (fun f => decide (st.timerFileName = some f.basename))).isSome
      = true) :
    startTimer st now af = (st, [noticeAlreadyRunning]) ∧
    stopTimer stIdle tIdle vIdle actIdle = (stIdle, [], [noticeNoTimer]) ∧
    (stopTimer st now v act).1.timer = false ∧
    (stopTimer st now v act).2.1.length = 1 ∧
    stopTimer (stopTimer st now v act).1 now2 v act =
      ((stopTimer st now v act).1, [], [noticeNoTimer]) := by
  obtain ⟨f, hf⟩ := Option.isSome_iff_exists.mp hfound
  refine ⟨?_, ?_, ?_, ?_, ?_⟩
  · simp [startTimer, hrun]
  · simp [stopTimer, hidle]
  · simp [stopTimer, hrun]
  · simp [stopTimer, hrun, logTimeSpentEff, hf]
  · have h1 : (stopTimer st now v act).1.timer = false := by simp [stopTimer, hrun]
    generalize (stopTimer st now v act).1 = st1 at h1 ⊢
    simp [stopTimer, h1]

theorem c2_state_guard_witness :
    startTimer ⟨true, some ⟨2024, 1, 1, 10, 0, 0, 0⟩, 0, some "note".data⟩
        ⟨2024, 1, 1, 10, 1, 0, 0⟩ none =
      (⟨true, some ⟨2024, 1, 1, 10, 0, 0, 0⟩, 0, some "note".data⟩,
        [noticeAlreadyRunning]) ∧
    stopTimer ⟨false, none, 0, none⟩ ⟨2024, 1, 1, 9, 0, 0, 0⟩ [] none =
      (⟨false, none, 0, none⟩, [], [noticeNoTimer]) ∧
    (stopTimer ⟨true, some ⟨2024, 1, 1, 10, 0, 0, 0⟩, 0, some "note".data⟩
        ⟨2024, 1, 1, 10, 1, 0, 0⟩ [⟨"note".data, "body".data⟩] none).1.timer = false ∧
    (stopTimer ⟨true, some ⟨2024, 1, 1, 10, 0, 0, 0⟩, 0, some "note".data⟩
        ⟨2024, 1, 1, 10, 1, 0, 0⟩ [⟨"note".data, "body".data⟩] none).2.1.length = 1 ∧
    stopTimer (stopTimer ⟨true, some ⟨2024, 1, 1, 10, 0, 0, 0⟩, 0, some "note".data⟩
        ⟨2024, 1, 1, 10, 1, 0, 0⟩ [⟨"note".data, "body".data⟩] none).1
        ⟨2024, 1, 1, 10, 2, 0, 0⟩ [⟨"note".data, "body".data⟩] none =
      ((stopTimer ⟨true, some ⟨2024, 1, 1, 10, 0, 0, 0⟩, 0, some "note".data⟩
        ⟨2024, 1, 1, 10, 1, 0, 0⟩ [⟨"note".data, "body".data⟩] none).1, [],
        [noticeNoTimer]) :=
  c2_state_guard ⟨true, some ⟨2024, 1, 1, 10, 0, 0, 0⟩, 0, some "note".data⟩
    ⟨false, none, 0, none⟩ ⟨2024, 1, 1, 10, 1, 0, 0⟩ ⟨2024, 1, 1, 10, 2, 0, 0⟩
    ⟨2024, 1, 1, 9, 0, 0, 0⟩ none none none [⟨"note".data, "body".data⟩] []
    (by decide) (by decide) (by decide)

/-- C6: the document label is captured exactly once at start and held until
stop, so two runs differing only in the workspace's active file at stop time
produce identical stop outcomes (same write target, same everything). -/
theorem c6_label_capture (st : PState) (hidle : st.timer = false)
    (t1 t2 : DateTime) (aStart b1 b2 : Option Str) (v : List MFile) :
    (startTimer st t1 aStart).1.timerFileName =
      some (match aStart with | some n => n | none => unknownPage) ∧
    stopTimer (startTimer st t1 aStart).1 t2 v b1 =
      stopTimer (startTimer st t1 aStart).1 t2 v b2 := by
  constructor
  · simp [startTimer, hidle]
  · rfl

theorem c6_label_capture_witness :
    (startTimer ⟨false, none, 0, none⟩ ⟨2024, 1, 1, 10, 0, 0, 0⟩
        (some "alpha".data)).1.timerFileName = some "alpha".data ∧
    stopTimer (startTimer ⟨false, none, 0, none⟩ ⟨2024, 1, 1, 10, 0, 0, 0⟩
        (some "alpha".data)).1 ⟨2024, 1, 1, 10, 1, 0, 0⟩
        [⟨"alpha".data, "".data⟩, ⟨"beta".data, "".data⟩] (some "beta".data) =
      stopTimer (startTimer ⟨false, none, 0, none⟩ ⟨2024, 1, 1, 10, 0, 0, 0⟩
        (some "alpha".data)).1 ⟨2024, 1, 1, 10, 1, 0, 0⟩
        [⟨"alpha".data, "".data⟩, ⟨"beta".data, "".data⟩] (some "gamma".data) :=
  c6_label_capture _ (by decide) _ _ _ _ _ _

/-- C7 counterexample: when the target file cannot be found, no write happens
and the user is notified, but `totalTime` HAS been updated (the code adds the
elapsed time before the lookup), contradicting the claim's "the in-memory
total is not updated". -/
theorem c7_counterexample :
    (stopTimer ⟨true, some ⟨2024, 1, 1, 10, 0, 0, 0⟩, 0, some "note".data⟩
        ⟨2024, 1, 1, 10, 1, 0, 0⟩ [] none).2.1 = [] ∧
    noticeNotFound (some "note".data) ∈
      (stopTimer ⟨true, some ⟨2024, 1, 1, 10, 0, 0, 0⟩, 0, some "note".data⟩
        ⟨2024, 1, 1, 10, 1, 0, 0⟩ [] none).2.2 ∧
    ¬ ((stopTimer ⟨true, some ⟨2024, 1, 1, 10, 0, 0, 0⟩, 0, some "note".data⟩
        ⟨2024, 1, 1, 10, 1, 0, 0⟩ [] none).1.totalTimeMs = 0) := by
  decide

/-- C7 amended: when the just-stopped session's document cannot be located,
the edit is skipped with a user notification and no write is performed, but
the in-memory total IS still updated (incremented before the lookup). -/
theorem c7_amended (st : PState) (now : DateTime) (v : List MFile)
    (act : Option Str) (hrun : st.timer = true)
    (hnf : v.find? (fun f => decide (st.timerFileName = some f.basename)) = none) :
    (stopTimer st now v act).2.1 = [] ∧
    noticeNotFound st.timerFileName ∈ (stopTimer st now v act).2.2 ∧
    (stopTimer st now v act).1.totalTimeMs =
      st.totalTimeMs + (getTime now - getTime (st.startTime.getD epochDate)) := by
  simp [stopTimer, hrun, logTimeSpentEff, hnf]

theorem c7_amended_witness :
    (stopTimer ⟨true, some ⟨2024, 1, 1, 10, 0, 0, 0⟩, 7, some "gone".data⟩
        ⟨2024, 1, 1, 10, 1, 0, 0⟩ [⟨"other".data, "".data⟩] none).2.1 = [] ∧
    noticeNotFound (some "gone".data) ∈
      (stopTimer ⟨true, some ⟨2024, 1, 1, 10, 0, 0, 0⟩, 7, some "gone".data⟩
        ⟨2024, 1, 1, 10, 1, 0, 0⟩ [⟨"other".data, "".data⟩] none).2.2 ∧
    (stopTimer ⟨true, some ⟨2024, 1, 1, 10, 0, 0, 0⟩, 7, some "gone".data⟩
        ⟨2024, 1, 1, 10, 1, 0, 0⟩ [⟨"other".data, "".data⟩] none).1.totalTimeMs =
      7 + (getTime ⟨2024, 1, 1, 10, 1, 0, 0⟩ - getTime ⟨2024, 1, 1, 10, 0, 0, 0⟩) :=
  c7_amended _ _ _ _ (by decide) (by decide)

/-- C10 counterexample: for a session with start 10:00:00.900 and end
10:00:01.000 (end not earlier than start), the code's whole-second duration
is 0, yet re-parsing the rendered entry yields 1 second. -/
theorem c10_counterexample :
    getTime ⟨2024, 1, 1, 10, 0, 0, 900⟩ ≤ getTime ⟨2024, 1, 1, 10, 0, 1, 0⟩ ∧
    durationSecondsI ⟨2024, 1, 1, 10, 0, 0, 900⟩ ⟨2024, 1, 1, 10, 0, 1, 0⟩ = 0 ∧
    calculateTotalTime
      [logEntry ⟨2024, 1, 1, 10, 0, 0, 900⟩ ⟨2024, 1, 1, 10, 0, 1, 0⟩] = 1 := by
  decide

/-- C10 amended: for sessions between in-range four-digit-year timestamps
whose end millisecond component is not below the start's (in particular for
whole-second clock readings), the freshly rendered entry matches the
extraction pattern and re-parses to exactly the session's floored
whole-second duration. -/
theorem c10_amended (s e : DateTime) (hs : ValidDate s) (he : ValidDate e)
    (_hle : getTime s ≤ getTime e) (hms : s.ms ≤ e.ms) :
    timeMatch (logEntry s e) = some (truncMs s, truncMs e) ∧
    calculateTotalTime [logEntry s e] = durationSecondsI s e := by
  have he999 : e.ms ≤ 999 := he.2.2.2.2.2.2.2.2.2
  refine ⟨timeMatch_logEntry hs he, ?_⟩
  unfold calculateTotalTime
  simp only [List.map_cons, List.map_nil, List.sum_cons, List.sum_nil, add_zero]
  rw [entryDuration_logEntry hs he, durationSecondsI_eq_toSec he999 hms]

theorem c10_amended_witness :
    timeMatch (logEntry ⟨2024, 1, 1, 10, 0, 0, 0⟩ ⟨2024, 1, 1, 10, 2, 0, 0⟩) =
      some (truncMs ⟨2024, 1, 1, 10, 0, 0, 0⟩, truncMs ⟨2024, 1, 1, 10, 2, 0, 0⟩) ∧
    calculateTotalTime [logEntry ⟨2024, 1, 1, 10, 0, 0, 0⟩ ⟨2024, 1, 1, 10, 2, 0, 0⟩] =
      durationSecondsI ⟨2024, 1, 1, 10, 0, 0, 0⟩ ⟨2024, 1, 1, 10, 2, 0, 0⟩ :=
  c10_amended _ _ (by decide) (by decide) (by decide) (by decide)

/-- C4 counterexample: stopping on the block-less document "hello\n" does not
leave the original body unchanged after the new block: the body is trimmed
(the trailing newline is gone), so the original body is not a suffix of the
result. -/
theorem c4_counterexample :
    findFM "hello\n".data = none ∧
    ¬ List.IsSuffix "hello\n".data
        (logTimeSpentContent ⟨2024, 1, 1, 10, 0, 0, 0⟩ ⟨2024, 1, 1, 10, 1, 0, 0⟩
          "hello\n".data) := by
  decide

/-- C4 amended: for every document in which the front-matter pattern does not
match, stopping produces a document that begins with a well-formed delimited
block containing exactly the duration field and the log field, followed by a
blank line and the original body trimmed of surrounding whitespace. -/
theorem c4_amended (s e : DateTime) (doc : Str) (h : findFM doc = none) :
    logTimeSpentContent s e doc =
      "---\ntime_spent: ".data ++ formatTime (durationSecondsI s e).toNat
        ++ "\npomosidian_log: |-\n".data ++ logEntry s e
        ++ "\n---\n\n".data ++ jsTrim doc := by
  unfold logTimeSpentContent
  rw [h]
  simp [fmOpenPat, tsKeyPat, logKeyPat, List.append_assoc]

theorem c4_amended_witness :
    logTimeSpentContent ⟨2024, 1, 1, 10, 0, 0, 0⟩ ⟨2024, 1, 1, 10, 1, 0, 0⟩
        "hello".data =
      "---\ntime_spent: ".data
        ++ formatTime (durationSecondsI ⟨2024, 1, 1, 10, 0, 0, 0⟩
            ⟨2024, 1, 1, 10, 1, 0, 0⟩).toNat
        ++ "\npomosidian_log: |-\n".data
        ++ logEntry ⟨2024, 1, 1, 10, 0, 0, 0⟩ ⟨2024, 1, 1, 10, 1, 0, 0⟩
        ++ "\n---\n\n".data ++ jsTrim "hello".data :=
  c4_amended _ _ "hello".data (by decide)

/-- A document whose front matter already stores `time_spent: 1m` and one
60-second log entry (used to exhibit the stored-total bug). -/
def c1Doc : Str :=
  "---\ntime_spent: 1m\npomosidian_log: |-\n".data
    ++ logEntry ⟨2024, 1, 1, 10, 0, 0, 0⟩ ⟨2024, 1, 1, 10, 1, 0, 0⟩
    ++ "\n---\nbody".data

/-- C1: merging a 120-second session into `c1Doc` stores `time_spent: 2m`
(main.ts line 138 computes the "total" from the new entry alone), while the
sum of the durations of all log entries present in the updated log field is
180 seconds, whose formatted value is "3m".  The invariant claimed by the
spec is violated by the code. -/
theorem c1_total_bug :
    storedTimeSpent (logTimeSpentContent ⟨2024, 1, 1, 11, 0, 0, 0⟩
        ⟨2024, 1, 1, 11, 2, 0, 0⟩ c1Doc) = some "2m".data ∧
    calculateTotalTime (storedLogEntries (logTimeSpentContent ⟨2024, 1, 1, 11, 0, 0, 0⟩
        ⟨2024, 1, 1, 11, 2, 0, 0⟩ c1Doc)) = 180 ∧
    formatTime 180 = "3m".data ∧
    "2m".data ≠ "3m".data := by
  decide

/-- C8: merging zero new sessions leaves the serialized log byte-identical
(the code keeps `$1` verbatim); splitting any log text into lines and
re-joining them is byte-identical; and after arbitrary repeated merges every
entry is recovered as an independent line by re-parsing. -/
theorem c8_roundtrip (L : Str) (E : List Str) (hne : E ≠ [])
    (hE : ∀ l ∈ E, '\n' ∉ l) (ss : List (DateTime × DateTime)) :
    mergeManyLogText [] L = L ∧
    joinNl (lineSplit L) = L ∧
    lineSplit (mergeManyLogText (ss.map fun p => logEntry p.1 p.2) (joinNl E)) =
      (ss.map fun p => logEntry p.1 p.2) ++ E := by
  refine ⟨rfl, joinNl_lineSplit L, ?_⟩
  induction ss with
  | nil => simpa [mergeManyLogText] using lineSplit_joinNl E hne hE
  | cons p ss2 ih =>
    show lineSplit (logEntry p.1 p.2
      ++ '\n' :: mergeManyLogText (ss2.map fun q => logEntry q.1 q.2) (joinNl E)) = _
    rw [lineSplit_append_nl (noNl_logEntry p.1 p.2), ih]
    simp

theorem c8_roundtrip_witness :
    mergeManyLogText [] "old text".data = "old text".data ∧
    joinNl (lineSplit "old text".data) = "old text".data ∧
    lineSplit (mergeManyLogText
        ([(⟨2024, 1, 1, 10, 0, 0, 0⟩, ⟨2024, 1, 1, 10, 1, 0, 0⟩)].map
          fun p => logEntry p.1 p.2) (joinNl ["entry one".data])) =
      ([((⟨2024, 1, 1, 10, 0, 0, 0⟩ : DateTime), (⟨2024, 1, 1, 10, 1, 0, 0⟩ : DateTime))].map
        fun p => logEntry p.1 p.2) ++ ["entry one".data] :=
  c8_roundtrip "old text".data ["entry one".data] (by decide) (by decide) _

/-! ### The C5 cycle development: a concrete session merged any number of
times into a document carrying an unrelated `foo: bar` field. -/

def c5s : DateTime := ⟨2024, 1, 1, 10, 0, 0, 0⟩

def c5e : DateTime := ⟨2024, 1, 1, 10, 2, 0, 0⟩

def c5entry : Str := logEntry c5s c5e

/-- The front matter group after the first merge, before the entries. -/
def c5head : Str := "foo: bar\ntime_spent: 2m\npomosidian_log: |-\n".data

/-- The log-block text after `k + 1` merges of the same session. -/
def entriesTxt : Nat → Str
  | 0 => c5entry
  | k + 1 => c5entry ++ '\n' :: entriesTxt k

lemma entriesTxt_head (k : Nat) : (entriesTxt k).head? = some ' ' := by
  cases k <;> rfl

lemma entriesTxt_last (k : Nat) : (entriesTxt k).getLast? = some ')' := by
  induction k with
  | zero => decide
  | succ k ih =>
    have hne : entriesTxt k ≠ [] := by
      intro h
      rw [h] at ih
      simp at ih
    obtain ⟨x, l2, hx⟩ : ∃ x l2, entriesTxt k = x :: l2 := by
      cases hE : entriesTxt k with
      | nil => exact absurd hE hne
      | cons x l2 => exact ⟨x, l2, rfl⟩
    show (c5entry ++ '\n' :: entriesTxt k).getLast? = some ')'
    rw [hx] at ih ⊢
    rw [List.getLast?_append, List.getLast?_cons_cons, ih]
    rfl

lemma entriesTxt_chain (k : Nat) : chain2Free '\n' '-' (entriesTxt k) = true := by
  induction k with
  | zero => decide
  | succ k ih =>
    show chain2Free '\n' '-' (c5entry ++ '\n' :: entriesTxt k) = true
    rw [show c5entry ++ '\n' :: entriesTxt k = (c5entry ++ ['\n']) ++ entriesTxt k by simp]
    apply chain2Free_append (by decide) ih
    intro u v hu hv
    rw [(by decide : (c5entry ++ ['\n']).getLast? = some '\n')] at hu
    rw [entriesTxt_head k] at hv
    injection hu with hu2
    injection hv with hv2
    subst hu2
    subst hv2
    decide

lemma c5group_chain (m : Nat) : chain2Free '\n' '-' (c5head ++ entriesTxt m) = true := by
  apply chain2Free_append (by decide) (entriesTxt_chain m)
  intro u v hu hv
  rw [(by decide : c5head.getLast? = some '\n')] at hu
  rw [entriesTxt_head m] at hv
  injection hu with hu2
  injection hv with hv2
  subst hu2
  subst hv2
  decide

lemma c5group_last (m : Nat) : (c5head ++ entriesTxt m).getLast? = some ')' := by
  rw [List.getLast?_append, entriesTxt_last]
  rfl

lemma c5group_trim (m : Nat) : jsTrim (c5head ++ entriesTxt m) = c5head ++ entriesTxt m := by
  apply jsTrim_noop
  · intro c hc
    rw [(rfl : (c5head ++ entriesTxt m).head? = some 'f')] at hc
    injection hc with hc2
    subst hc2
    decide
  · intro c hc
    rw [c5group_last m] at hc
    injection hc with hc2
    subst hc2
    decide

lemma findFMGo_cons_some {acc : Str} {c : Char} {rest g post : Str}
    (h : fmAt (c :: rest) = some (g, post)) :
    findFMGo acc (c :: rest) true = some (acc.reverse, g, post) := by
  conv_lhs => unfold findFMGo
  rw [if_pos rfl, h]

/-- A document of the shape `"---\n" ++ g ++ "\n---" ++ post` whose group `g`
never has `'\n'` followed by `'-'` is decomposed by the front-matter regex
exactly there. -/
lemma findFM_block (g post : Str) (hch : chain2Free '\n' '-' g = true) :
    findFM (fmOpenPat ++ (g ++ (nlDashPat ++ post))) = some ([], g, post) := by
  have hfm : fmAt (fmOpenPat ++ (g ++ (nlDashPat ++ post))) = some (g, post) := by
    unfold fmAt
    rw [if_pos (List.isPrefixOf_iff_prefix.mpr (List.prefix_append _ _))]
    rw [List.drop_left' (by decide : fmOpenPat.length = 4)]
    exact splitOnFirst_nlDash g post hch
  show findFMGo [] (fmOpenPat ++ (g ++ (nlDashPat ++ post))) true = some ([], g, post)
  rw [show fmOpenPat ++ (g ++ (nlDashPat ++ post))
      = '-' :: ('-' :: '-' :: '\n' :: (g ++ (nlDashPat ++ post))) from rfl] at hfm ⊢
  exact findFMGo_cons_some hfm

lemma splitOnFirst_ts_c5 (E : Str) :
    splitOnFirst tsKeyPat (c5head ++ E)
      = some ("foo: bar\n".data, "2m\n".data ++ (logKeyPat ++ E)) :=
  splitOnFirst_at tsKeyPat (by decide) "foo: bar\n".data
    ("2m\n".data ++ (logKeyPat ++ E)) (by decide)

lemma splitOnFirst_log_c5 (E : Str) :
    splitOnFirst logKeyPat (c5head ++ E)
      = some ("foo: bar\ntime_spent: 2m\n".data, E) :=
  splitOnFirst_at logKeyPat (by decide) "foo: bar\ntime_spent: 2m\n".data E (by decide)

lemma mergeFM_c5 (E : Str) :
    mergeFrontMatter (c5head ++ E) c5entry "2m".data
      = c5head ++ (c5entry ++ '\n' :: E) := by
  have hts : hasTimeSpent (c5head ++ E) = true := by
    unfold hasTimeSpent
    rw [splitOnFirst_ts_c5]
    rfl
  have hlb : hasLogBlock (c5head ++ E) = true := by
    unfold hasLogBlock
    rw [splitOnFirst_log_c5]
    rfl
  have hrts : replaceTimeSpent (c5head ++ E) "2m".data = c5head ++ E := by
    unfold replaceTimeSpent
    rw [splitOnFirst_ts_c5]
    rfl
  have hrlb : replaceLogBlock (c5head ++ E) c5entry
      = c5head ++ (c5entry ++ '\n' :: E) := by
    unfold replaceLogBlock
    rw [splitOnFirst_log_c5]
    rfl
  unfold mergeFrontMatter
  rw [hts, hlb]
  simp only [if_true]
  rw [hrts, hrlb]

lemma c5_step (k : Nat) (post : Str) :
    logTimeSpentContent c5s c5e
        (fmOpenPat ++ ((c5head ++ entriesTxt k) ++ (nlDashPat ++ post)))
      = fmOpenPat ++ ((c5head ++ entriesTxt (k + 1)) ++ (nlDashPat ++ post)) := by
  unfold logTimeSpentContent
  rw [show (c5head ++ entriesTxt k) ++ (nlDashPat ++ post)
      = (c5head ++ entriesTxt k) ++ (nlDashPat ++ post) from rfl]
  rw [findFM_block (c5head ++ entriesTxt k) post (c5group_chain k)]
  dsimp only
  rw [show formatTime (calculateTotalTime [logEntry c5s c5e]).toNat = "2m".data from by decide]
  rw [show logEntry c5s c5e = c5entry from rfl]
  rw [mergeFM_c5 (entriesTxt k)]
  rw [show c5head ++ (c5entry ++ '\n' :: entriesTxt k)
      = c5head ++ entriesTxt (k + 1) from rfl]
  rw [c5group_trim (k + 1)]
  simp [List.append_assoc, nlDashPat, fmOpenPat, List.cons_append]

lemma c5_step0 (post : Str) :
    logTimeSpentContent c5s c5e
        (fmOpenPat ++ ("foo: bar".data ++ (nlDashPat ++ post)))
      = fmOpenPat ++ ((c5head ++ entriesTxt 0) ++ (nlDashPat ++ post)) := by
  unfold logTimeSpentContent
  rw [findFM_block "foo: bar".data post (by decide)]
  dsimp only
  rw [show formatTime (calculateTotalTime [logEntry c5s c5e]).toNat = "2m".data from by decide]
  rw [show logEntry c5s c5e = c5entry from rfl]
  rw [show mergeFrontMatter "foo: bar".data c5entry "2m".data
      = c5head ++ entriesTxt 0 from by decide]
  rw [c5group_trim 0]
  simp [List.append_assoc, nlDashPat, fmOpenPat, List.cons_append]

lemma c5_cycles_good (m : Nat) : ∀ (k : Nat) (post : Str),
    runCycles (List.replicate m (c5s, c5e))
        (fmOpenPat ++ ((c5head ++ entriesTxt k) ++ (nlDashPat ++ post)))
      = fmOpenPat ++ ((c5head ++ entriesTxt (k + m)) ++ (nlDashPat ++ post)) := by
  induction m with
  | zero => intro k post; rfl
  | succ m ih =>
    intro k post
    show runCycles (List.replicate m (c5s, c5e))
        (logTimeSpentContent c5s c5e
          (fmOpenPat ++ ((c5head ++ entriesTxt k) ++ (nlDashPat ++ post))))
      = _
    rw [c5_step k post, ih (k + 1) post,
        show k + 1 + m = k + (m + 1) from by omega]

lemma c5_cycles (n : Nat) (post : Str) :
    runCycles (List.replicate (n + 1) (c5s, c5e))
        (fmOpenPat ++ ("foo: bar".data ++ (nlDashPat ++ post)))
      = fmOpenPat ++ ((c5head ++ entriesTxt n) ++ (nlDashPat ++ post)) := by
  show runCycles (List.replicate n (c5s, c5e))
      (logTimeSpentContent c5s c5e
        (fmOpenPat ++ ("foo: bar".data ++ (nlDashPat ++ post)))) = _
  rw [c5_step0 post]
  have := c5_cycles_good n 0 post
  rwa [Nat.zero_add] at this

/-- C5 counterexample: the document field `note: time_spent: 0s` (a field
other than the two owned ones) is present in the original metadata block but
is not preserved by the stop edit: the unanchored `time_spent: ` pattern
matches inside its value first, so the note line is rewritten to
`note: time_spent: 2m` and the field is lost. -/
theorem c5_counterexample :
    List.IsInfix "\nnote: time_spent: 0s\n".data
      "---\nnote: time_spent: 0s\nfoo: bar\n---\nbody".data ∧
    ¬ List.IsInfix "note: time_spent: 0s".data
      (logTimeSpentContent ⟨2024, 1, 1, 11, 0, 0, 0⟩ ⟨2024, 1, 1, 11, 2, 0, 0⟩
        "---\nnote: time_spent: 0s\nfoo: bar\n---\nbody".data) ∧
    List.IsInfix "\nnote: time_spent: 2m\n".data
      (logTimeSpentContent ⟨2024, 1, 1, 11, 0, 0, 0⟩ ⟨2024, 1, 1, 11, 2, 0, 0⟩
        "---\nnote: time_spent: 0s\nfoo: bar\n---\nbody".data) := by
  decide

/-- C5 amended: the stop edit preserves unrelated fields whose text does not
contain the owned key patterns, and the body, verbatim: starting from a
document whose block holds only `foo: bar`, after any number of start/stop
cycles the line `foo: bar` is still present unchanged and the entire body
after the block is a verbatim suffix. -/
theorem c5_field_preservation (n : Nat) (post : Str) :
    List.IsInfix ('\n' :: "foo: bar\n".data)
      (runCycles (List.replicate n (c5s, c5e))
        (fmOpenPat ++ ("foo: bar".data ++ (nlDashPat ++ post)))) ∧
    List.IsSuffix post
      (runCycles (List.replicate n (c5s, c5e))
        (fmOpenPat ++ ("foo: bar".data ++ (nlDashPat ++ post)))) := by
  cases n with
  | zero =>
    constructor
    · exact ⟨"---".data, "---".data ++ post, rfl⟩
    · exact ⟨"---\nfoo: bar\n---".data, rfl⟩
  | succ n =>
    rw [c5_cycles n post]
    constructor
    · exact ⟨"---".data,
        "time_spent: 2m\npomosidian_log: |-\n".data
          ++ (entriesTxt n ++ (nlDashPat ++ post)), rfl⟩
    · refine ⟨fmOpenPat ++ ((c5head ++ entriesTxt n) ++ nlDashPat), ?_⟩
      simp [List.append_assoc]
